import Mathlib

/-!
Verification of the sitemap-crawler orchestration core (`src/index.ts`).

The development shallowly embeds the crawler's pure computations:
filename derivation (`urlToFilename`, an MD5 hex digest plus a fixed
extension), document assembly (YAML frontmatter + heading + body),
the retry policy (p-retry with the repository's `retryOptions`), the
p-throttle windowed rate limiter, and the batch coordinator built on
`Promise.allSettled`.  Machine integers are `Nat` with explicit
`% 2^32` where the source relies on 32-bit wraparound (MD5).
-/

namespace SitemapCrawler

/-! ## MD5 (Node `crypto.createHash("md5")`), used by `urlToFilename` -/

/-- The 64 round constants of MD5, `floor(abs(sin(i+1)) * 2^32)`. -/
def mdK : List Nat :=
  [3614090360, 3905402710, 606105819, 3250441966, 4118548399, 1200080426,
   2821735955, 4249261313, 1770035416, 2336552879, 4294925233, 2304563134,
   1804603682, 4254626195, 2792965006, 1236535329, 4129170786, 3225465664,
   643717713, 3921069994, 3593408605, 38016083, 3634488961, 3889429448,
   568446438, 3275163606, 4107603335, 1163531501, 2850285829, 4243563512,
   1735328473, 2368359562, 4294588738, 2272392833, 1839030562, 4259657740,
   2763975236, 1272893353, 4139469664, 3200236656, 681279174, 3936430074,
   3572445317, 76029189, 3654602809, 3873151461, 530742520, 3299628645,
   4096336452, 1126891415, 2878612391, 4237533241, 1700485571, 2399980690,
   4293915773, 2240044497, 1873313359, 4264355552, 2734768916, 1309151649,
   4149444226, 3174756917, 718787259, 3951481745]

/-- The 64 per-round left-rotation amounts of MD5. -/
def mdS : List Nat :=
  [7, 12, 17, 22, 7, 12, 17, 22, 7, 12, 17, 22, 7, 12, 17, 22,
   5, 9, 14, 20, 5, 9, 14, 20, 5, 9, 14, 20, 5, 9, 14, 20,
   4, 11, 16, 23, 4, 11, 16, 23, 4, 11, 16, 23, 4, 11, 16, 23,
   6, 10, 15, 21, 6, 10, 15, 21, 6, 10, 15, 21, 6, 10, 15, 21]

/-- 32-bit left rotation on `Nat` (values kept below `2^32`). -/
def leftrot (x n : Nat) : Nat :=
  ((x <<< n) ||| (x >>> (32 - n))) % 4294967296

/-- Little-endian byte serialization of `n`, exactly `k` bytes. -/
def lenBytesLE (n : Nat) : Nat → List Nat
  | 0 => []
  | k + 1 => n % 256 :: lenBytesLE (n / 256) k

/-- Group a byte list into little-endian 32-bit words. -/
def toWordsLE : List Nat → List Nat
  | b0 :: b1 :: b2 :: b3 :: rest =>
      (b0 + 256 * b1 + 65536 * b2 + 16777216 * b3) :: toWordsLE rest
  | _ => []

/-- MD5 padding: append `0x80`, zero bytes to 56 mod 64, then the
    64-bit little-endian bit length. -/
def md5Pad (bs : List Nat) : List Nat :=
  bs ++ [128] ++ List.replicate ((119 - bs.length % 64) % 64) 0 ++
    lenBytesLE (bs.length * 8) 8

/-- One MD5 round: given the chunk's 16 words `m`, transform the
    running `(a, b, c, d)` state at round `i`. -/
def md5Step (m : List Nat) (st : Nat × Nat × Nat × Nat) (i : Nat) :
    Nat × Nat × Nat × Nat :=
  let a := st.1
  let b := st.2.1
  let c := st.2.2.1
  let d := st.2.2.2
  let f :=
    if i < 16 then (b &&& c) ||| ((b ^^^ 4294967295) &&& d)
    else if i < 32 then (d &&& b) ||| ((d ^^^ 4294967295) &&& c)
    else if i < 48 then b ^^^ c ^^^ d
    else c ^^^ (b ||| (d ^^^ 4294967295))
  let g :=
    if i < 16 then i
    else if i < 32 then (5 * i + 1) % 16
    else if i < 48 then (3 * i + 5) % 16
    else (7 * i) % 16
  let f' := (f + a + mdK.getD i 0 + m.getD g 0) % 4294967296
  (d, (b + leftrot f' (mdS.getD i 0)) % 4294967296, b, c)

/-- Process one 64-byte chunk into the 4-word MD5 state. -/
def md5Chunk (st : Nat × Nat × Nat × Nat) (chunk : List Nat) :
    Nat × Nat × Nat × Nat :=
  let m := toWordsLE chunk
  let r := (List.range 64).foldl (md5Step m) st
  ((st.1 + r.1) % 4294967296, (st.2.1 + r.2.1) % 4294967296,
   (st.2.2.1 + r.2.2.1) % 4294967296, (st.2.2.2 + r.2.2.2) % 4294967296)

/-- Fold the MD5 chunk function over a padded message. -/
def md5Loop (st : Nat × Nat × Nat × Nat) (bs : List Nat) :
    Nat × Nat × Nat × Nat :=
  if _h : bs.length < 64 then st
  else md5Loop (md5Chunk st (bs.take 64)) (bs.drop 64)
termination_by bs.length
decreasing_by simp [List.length_drop]; omega

/-- MD5 digest of a byte list: 16 bytes. -/
def md5 (bs : List Nat) : List Nat :=
  let r := md5Loop (1732584193, 4023233417, 2562383102, 271733878) (md5Pad bs)
  lenBytesLE r.1 4 ++ lenBytesLE r.2.1 4 ++ lenBytesLE r.2.2.1 4 ++
    lenBytesLE r.2.2.2 4

/-- UTF-8 encoding of one character (as Node's `Buffer` produces for
    the string fed to `crypto.update`). -/
def utf8Bytes (c : Char) : List Nat :=
  let n := c.toNat
  if n < 128 then [n]
  else if n < 2048 then [192 ||| (n >>> 6), 128 ||| (n &&& 63)]
  else if n < 65536 then
    [224 ||| (n >>> 12), 128 ||| ((n >>> 6) &&& 63), 128 ||| (n &&& 63)]
  else
    [240 ||| (n >>> 18), 128 ||| ((n >>> 12) &&& 63),
     128 ||| ((n >>> 6) &&& 63), 128 ||| (n &&& 63)]

/-- UTF-8 bytes of a string. -/
def strBytes (s : String) : List Nat :=
  s.data.flatMap utf8Bytes

/-- Lower-case hex digit for a value below 16 (total, with an
    irrelevant fallback). -/
def hexCharAux : Nat → Char
  | 0 => '0' | 1 => '1' | 2 => '2' | 3 => '3' | 4 => '4' | 5 => '5'
  | 6 => '6' | 7 => '7' | 8 => '8' | 9 => '9' | 10 => 'a' | 11 => 'b'
  | 12 => 'c' | 13 => 'd' | 14 => 'e' | 15 => 'f' | _ => '0'

/-- Two-character lower-case hex rendering of a byte. -/
def hexByte (b : Nat) : List Char :=
  [hexCharAux (b / 16 % 16), hexCharAux (b % 16)]

/-- `urlToFilename` from `src/index.ts`: the MD5 hex digest of the URL
    followed by the fixed `.md` extension. -/
def urlToFilename (url : String) : String :=
  String.mk ((md5 (strBytes url)).flatMap hexByte ++ ['.', 'm', 'd'])

/-! ## Extraction result and metadata (src/index.ts lines 86-129) -/

/-- The fields of `Parser.parse`'s result that `processUrl` reads.
    Optional strings model JS values that may be `null`/`undefined`. -/
structure ParseResult where
  content : Option String
  title : Option String
  excerpt : Option String
  domain : Option String
  word_count : Nat
  author : Option String
  date_published : Option String
  lead_image_url : Option String
deriving Repr, DecidableEq

/-- The `metadata` object literal of src/index.ts lines 100-111. -/
structure Metadata where
  title : Option String
  excerpt : Option String
  siteName : Option String
  url : String
  wordCount : Nat
  length : Nat
  processedAt : String
  author : Option String
  date_published : Option String
  lead_image_url : Option String
deriving Repr, DecidableEq

/-- Build the metadata object exactly as src/index.ts lines 100-111:
    `siteName` comes from `result.domain`, and both `wordCount` and
    `length` come from `result.word_count`. -/
def mkMetadata (result : ParseResult) (siteUrl : String) (now : String) : Metadata :=
  { title := result.title
    excerpt := result.excerpt
    siteName := result.domain
    url := siteUrl
    wordCount := result.word_count
    length := result.word_count
    processedAt := now
    author := result.author
    date_published := result.date_published
    lead_image_url := result.lead_image_url }

/-! ## YAML frontmatter serialization and parsing

Modelled from the spec: the `js-yaml` `dump`/`load` pair is an external
collaborator; §4.2 requires "a deterministic, whitespace-stable
serialization of the ExtractedDocument fields" that round-trips.  We
model it as one `key: value` line per field in the object's insertion
order, with strings double-quoted (backslash, quote and newline
escaped), absent values as `null`, and counts in decimal. -/

/-- Escape a double-quoted scalar body. -/
def escChars : List Char → List Char
  | [] => []
  | c :: cs =>
    if c = '\\' then '\\' :: '\\' :: escChars cs
    else if c = '"' then '\\' :: '"' :: escChars cs
    else if c = '\n' then '\\' :: 'n' :: escChars cs
    else c :: escChars cs

/-- Big-endian decimal digits of `n` (so `0` renders as `[0]`). -/
def natBigDigits (n : Nat) : List Nat :=
  if n = 0 then [0] else (Nat.digits 10 n).reverse

/-- Decimal character rendering of `n`. -/
def natChars (n : Nat) : List Char :=
  (natBigDigits n).map hexCharAux

/-- Serialized double-quoted string scalar. -/
def serStr (s : String) : List Char :=
  '"' :: (escChars s.data ++ ['"'])

/-- Serialized optional string scalar: `null` when absent. -/
def serOptStr : Option String → List Char
  | none => ['n', 'u', 'l', 'l']
  | some s => serStr s

/-- One `key: value` line. -/
def serLine (key : String) (v : List Char) : List Char :=
  key.data ++ ':' :: ' ' :: (v ++ ['\n'])

/-- Serialize the metadata block, in the insertion order of the
    `metadata` object literal (src/index.ts lines 100-111). -/
def serializeMeta (m : Metadata) : List Char :=
  serLine "title" (serOptStr m.title) ++
  (serLine "excerpt" (serOptStr m.excerpt) ++
  (serLine "siteName" (serOptStr m.siteName) ++
  (serLine "url" (serStr m.url) ++
  (serLine "wordCount" (natChars m.wordCount) ++
  (serLine "length" (natChars m.length) ++
  (serLine "processedAt" (serStr m.processedAt) ++
  (serLine "author" (serOptStr m.author) ++
  (serLine "date_published" (serOptStr m.date_published) ++
  serLine "lead_image_url" (serOptStr m.lead_image_url)))))))))

/-- The `yamlDump(metadata)` call of src/index.ts line 113. -/
def yamlDump (m : Metadata) : String :=
  String.mk (serializeMeta m)

/-- Consume an expected sequence of characters. -/
def expectChars : List Char → List Char → Option (List Char)
  | [], rest => some rest
  | _ :: _, [] => none
  | p :: ps, c :: cs => if c = p then expectChars ps cs else none

/-- Read a double-quoted scalar body up to the closing quote. -/
def unescChars : List Char → Option (List Char × List Char)
  | [] => none
  | c :: cs =>
    if c = '"' then some ([], cs)
    else if c = '\\' then
      match cs with
      | [] => none
      | d :: ds =>
        (unescChars ds).map (fun p => ((if d = 'n' then '\n' else d) :: p.1, p.2))
    else (unescChars cs).map (fun p => (c :: p.1, p.2))

/-- Read a maximal run of decimal digits. -/
def readDigits : List Char → List Nat × List Char
  | [] => ([], [])
  | c :: cs =>
    if c.isDigit then
      ((c.toNat - 48) :: (readDigits cs).1, (readDigits cs).2)
    else ([], c :: cs)

/-- Value of a big-endian digit list. -/
def digitsVal (ds : List Nat) : Nat :=
  ds.foldl (fun a d => 10 * a + d) 0

/-- Parse a decimal count. -/
def parseNatVal (cs : List Char) : Option (Nat × List Char) :=
  if (readDigits cs).1 = [] then none
  else some (digitsVal (readDigits cs).1, (readDigits cs).2)

/-- Parse an optional string scalar (`null` or double-quoted). -/
def parseStrVal : List Char → Option (Option String × List Char)
  | '"' :: rest =>
    match unescChars rest with
    | none => none
    | some (v, r) => some (some (String.mk v), r)
  | 'n' :: 'u' :: 'l' :: 'l' :: rest => some (none, rest)
  | _ => none

/-- Parse a mandatory string scalar. -/
def parseStrReq (cs : List Char) : Option (String × List Char) :=
  match cs with
  | '"' :: rest =>
    match unescChars rest with
    | none => none
    | some (v, r) => some (String.mk v, r)
  | _ => none

/-- Parse one `key: value` line with the given value parser. -/
def parseKeyVal {α : Type} (pv : List Char → Option (α × List Char))
    (key : String) (cs : List Char) : Option (α × List Char) :=
  Option.bind (expectChars (key.data ++ [':', ' ']) cs) fun rest =>
  Option.bind (pv rest) fun p =>
  match p.2 with
  | '\n' :: r' => some (p.1, r')
  | _ => none

/-- Parse a whole metadata block back into a `Metadata` value. -/
def parseMeta (s : String) : Option Metadata :=
  Option.bind (parseKeyVal parseStrVal "title" s.data) fun p1 =>
  Option.bind (parseKeyVal parseStrVal "excerpt" p1.2) fun p2 =>
  Option.bind (parseKeyVal parseStrVal "siteName" p2.2) fun p3 =>
  Option.bind (parseKeyVal parseStrReq "url" p3.2) fun p4 =>
  Option.bind (parseKeyVal parseNatVal "wordCount" p4.2) fun p5 =>
  Option.bind (parseKeyVal parseNatVal "length" p5.2) fun p6 =>
  Option.bind (parseKeyVal parseStrReq "processedAt" p6.2) fun p7 =>
  Option.bind (parseKeyVal parseStrVal "author" p7.2) fun p8 =>
  Option.bind (parseKeyVal parseStrVal "date_published" p8.2) fun p9 =>
  Option.bind (parseKeyVal parseStrVal "lead_image_url" p9.2) fun p10 =>
  if p10.2 = [] then
    some ⟨p1.1, p2.1, p3.1, p4.1, p5.1, p6.1, p7.1, p8.1, p9.1, p10.1⟩
  else none

/-! ## Document assembly and the per-URL operation -/

/-- JS `x || d` on an optional string: `null`/`undefined` and `""` are
    falsy (src/index.ts line 117, `metadata.title || "Untitled"`). -/
def jsOrDefault (t : Option String) (d : String) : String :=
  match t with
  | none => d
  | some s => if s = "" then d else s

/-- The assembled file content (src/index.ts lines 114-120): frontmatter
    block, heading, body. -/
def assembleContent (m : Metadata) (markdown : String) : String :=
  "---\n" ++ yamlDump m ++ "---\n\n# " ++ jsOrDefault m.title "Untitled" ++
    "\n\n" ++ markdown ++ "\n"

/-- A file write performed by `processUrl`. -/
structure WriteOp where
  path : String
  content : String
deriving Repr, DecidableEq

/-- The success value returned by `processUrl` (src/index.ts line 128). -/
structure UrlSuccess where
  success : Bool
  url : String
  path : String
deriving Repr, DecidableEq

/-- JS truthiness test of `!result || !result.content`
    (src/index.ts line 93). -/
def contentMissing (result : Option ParseResult) : Bool :=
  match result with
  | none => true
  | some r =>
    match r.content with
    | none => true
    | some s => s == ""

/-- `processUrl` (src/index.ts lines 86-129), with the effects made
    explicit: the returned list records the file writes performed and
    `now` stands for `new Date().toISOString()`. -/
def processUrl (outputPath : String) (now : String) (siteUrl : String)
    (result : Option ParseResult) : Except String UrlSuccess × List WriteOp :=
  match result with
  | none => (Except.error "No content found", [])
  | some r =>
    match r.content with
    | none => (Except.error "No content found", [])
    | some markdown =>
      if markdown = "" then (Except.error "No content found", [])
      else
        let metadata := mkMetadata r siteUrl now
        let content := assembleContent metadata markdown
        let filePath := outputPath ++ "/" ++ urlToFilename siteUrl
        (Except.ok ⟨true, siteUrl, filePath⟩, [⟨filePath, content⟩])

/-! ## Retry policy (src/index.ts lines 132-169)

The `retryOptions` object configures the external `p-retry`
collaborator with `retries` retries, `factor` 2, `minTimeout`
`retryDelay`, `maxTimeout` 60000.  Modelled from the spec and the
library contract: `retries` bounds the number of RETRIES after the
first attempt, the wait after failed attempt `n` (1-based) is
`min(minTimeout * factor^(n-1), maxTimeout)`, a success at any attempt
returns immediately, and only after attempt `retries + 1` fails is the
last error rethrown. -/

/-- The repository's own delay computation (src/index.ts lines 140-144):
    `Math.min(retryDelay * Math.pow(2, retryCount - 1), 60000)`. -/
def nextRetryDelay (retryDelay n : Nat) : Nat :=
  min (retryDelay * 2 ^ (n - 1)) 60000

/-- Terminal result of a retried operation, tagged with the number of
    the attempt that ended the run. -/
inductive RetryResult (α : Type) where
  | done (attempt : Nat) (v : α)
  | exhausted (attempt : Nat) (e : String)
deriving Repr, DecidableEq

/-- Run attempt `n` with `k` retries remaining. -/
def retryGo {α : Type} (op : Nat → Except String α) (n : Nat) :
    Nat → RetryResult α
  | 0 =>
    match op n with
    | Except.ok v => RetryResult.done n v
    | Except.error e => RetryResult.exhausted n e
  | k + 1 =>
    match op n with
    | Except.ok v => RetryResult.done n v
    | Except.error _ => retryGo op (n + 1) k

/-- `pRetry(() => processUrl(siteUrl), retryOptions)`: first attempt is
    attempt 1, with `retries` retries remaining. -/
def pRetry {α : Type} (op : Nat → Except String α) (retries : Nat) :
    RetryResult α :=
  retryGo op 1 retries

/-- Like `retryGo`, also collecting the backoff waits performed, each
    computed by `nextRetryDelay` for the attempt that just failed. -/
def retryGoD {α : Type} (op : Nat → Except String α) (d0 n : Nat) :
    Nat → RetryResult α × List Nat
  | 0 =>
    (match op n with
     | Except.ok v => RetryResult.done n v
     | Except.error e => RetryResult.exhausted n e, [])
  | k + 1 =>
    match op n with
    | Except.ok v => (RetryResult.done n v, [])
    | Except.error _ =>
      ((retryGoD op d0 (n + 1) k).1,
        nextRetryDelay d0 n :: (retryGoD op d0 (n + 1) k).2)

/-- Retried run together with its backoff wait schedule. -/
def pRetryD {α : Type} (op : Nat → Except String α) (d0 retries : Nat) :
    RetryResult α × List Nat :=
  retryGoD op d0 1 retries

/-! ## Throttled scheduler (src/index.ts lines 159-169)

Modelled from the spec: the external `p-throttle` collaborator's
windowed admission (§4.4) — at most `limit` starts are admitted per
1000 ms window; a call beyond the limit advances the window by 1000 ms.
All per-target calls arrive together (the coordinator maps over the
URL list synchronously), so every arrival time is 0. -/

/-- Throttle state: the current window's start tick and the number of
    starts admitted in it. -/
structure TState where
  tick : Nat
  active : Nat
deriving Repr, DecidableEq

/-- Admission of one call: its start time and the next state. -/
def tDelay (limit : Nat) (s : TState) : Nat × TState :=
  if s.active < limit then (s.tick, ⟨s.tick, s.active + 1⟩)
  else (s.tick + 1000, ⟨s.tick + 1000, 1⟩)

/-- Start times assigned to `n` simultaneously arriving calls. -/
def tStarts (limit : Nat) : Nat → TState → List Nat
  | 0, _ => []
  | n + 1, s => (tDelay limit s).1 :: tStarts limit n (tDelay limit s).2

/-- Start times of the `n` per-target operations: throttled when
    `rate > 0`, immediate otherwise (the `rateLimitPerSecond > 0`
    branch of src/index.ts lines 159-169). -/
def opStarts (rate n : Nat) : List Nat :=
  if rate > 0 then tStarts rate n ⟨0, 0⟩ else List.replicate n 0

/-- Closed-form start time of the `i`-th operation. -/
def startOf (rate i : Nat) : Nat :=
  if rate > 0 then 1000 * (i / rate) else 0

/-! ## Batch coordinator (src/index.ts lines 171-215) -/

/-- A settled promise, as `Promise.allSettled` reports it. -/
inductive Settled (α : Type) where
  | fulfilled (v : α)
  | rejected (e : String)
deriving Repr, DecidableEq

/-- Value a mapped per-target promise fulfills with. -/
inductive UrlOutcome where
  | success (v : UrlSuccess)
  | failure (e : String)
deriving Repr, DecidableEq

/-- The per-target `try`/`catch` under `--continue` (src/index.ts lines
    177-199): a rejection of the throttled operation is caught and
    converted into a FULFILLED `{success:false, url, error}` value. -/
def mapTargetContinue (r : Except String UrlSuccess) : Settled UrlOutcome :=
  match r with
  | Except.ok v => Settled.fulfilled (UrlOutcome.success v)
  | Except.error e => Settled.fulfilled (UrlOutcome.failure e)

/-- The final summary line's counts (src/index.ts lines 203-214):
    `successful` counts FULFILLED results, `failed` counts REJECTED
    results of `Promise.allSettled`. -/
structure RunSummary where
  total : Nat
  successful : Nat
  failed : Nat
deriving Repr, DecidableEq

/-- The `result.status === "fulfilled"` test of src/index.ts line 204. -/
def isFulfilled {α : Type} : Settled α → Bool
  | Settled.fulfilled _ => true
  | Settled.rejected _ => false

/-- The `result.status === "rejected"` test of src/index.ts line 207. -/
def isRejected {α : Type} : Settled α → Bool
  | Settled.fulfilled _ => false
  | Settled.rejected _ => true

/-- Aggregate settled results as src/index.ts lines 203-208 does. -/
def summarize {α : Type} (results : List (Settled α)) (totalSites : Nat) :
    RunSummary :=
  ⟨totalSites,
   (results.filter isFulfilled).length,
   (results.filter isRejected).length⟩

/-- The whole run under `--continue`: every target's terminal operation
    result is caught into a fulfilled value, then summarized. -/
def runContinue (ops : List (Except String UrlSuccess)) : RunSummary :=
  summarize (ops.map mapTargetContinue) ops.length

/-! ## Timed model of the run without `--continue`

Each target either succeeds instantly on every attempt (`true`) or
fails instantly on every attempt (`false`).  A failing target's
rejection reaches the catch handler after its throttled start plus its
full backoff schedule; the handler then calls `process.exit(1)`
(src/index.ts lines 189-196), so nothing starts afterwards. -/

/-- Total backoff wait of a target that fails all of its
    `retries + 1` attempts. -/
def exhaustWait (d0 retries : Nat) : Nat :=
  ((List.range retries).map (fun i => nextRetryDelay d0 (i + 1))).sum

/-- Times at which failing targets' rejections reach the catch handler. -/
def failTimes (targets : List Bool) (rate d0 retries : Nat) : List Nat :=
  (List.range targets.length).filterMap (fun i =>
    if targets.getD i true then none
    else some (startOf rate i + exhaustWait d0 retries))

/-- Time of the `process.exit(1)` call, if any target fails. -/
def exitTime (targets : List Bool) (rate d0 retries : Nat) : Option Nat :=
  (failTimes targets rate d0 retries).min?

/-- Exit status of the run without `--continue`: 1 from the catch
    handler on the first failure, otherwise 0 after the summary. -/
def exitCode (targets : List Bool) (rate d0 retries : Nat) : Nat :=
  if (exitTime targets rate d0 retries).isSome then 1 else 0

/-- Whether target `i`'s operation ever starts: it must be admitted
    before the process exits. -/
def started (targets : List Bool) (rate d0 retries i : Nat) : Bool :=
  match exitTime targets rate d0 retries with
  | none => decide (i < targets.length)
  | some T => decide (i < targets.length ∧ startOf rate i < T)

/-- A path-safe character: not a separator. -/
def pathSafe (c : Char) : Bool :=
  !(c == '/') && !(c == '\\')

/-- A lower-case hexadecimal digit character. -/
def isHexChar (c : Char) : Bool :=
  c.isDigit || ('a' ≤ c && c ≤ 'f')

/-! ## Lemmas about the retry engine -/

theorem retryGo_done {α : Type} (k : Nat) :
    ∀ (n₀ : Nat) (op : Nat → Except String α) (n : Nat) (v : α),
      retryGo op n₀ k = RetryResult.done n v →
      op n = Except.ok v ∧ n₀ ≤ n ∧ n ≤ n₀ + k ∧
        ∀ m, n₀ ≤ m → m < n → ∃ e, op m = Except.error e := by
  induction k with
  | zero =>
    intro n₀ op n v h
    cases hop : op n₀ with
    | ok w =>
      simp only [retryGo, hop] at h
      cases h
      exact ⟨hop, Nat.le_refl _, Nat.le_refl _, fun m hm hm' => absurd hm' (by omega)⟩
    | error e => simp [retryGo, hop] at h
  | succ k ih =>
    intro n₀ op n v h
    cases hop : op n₀ with
    | ok w =>
      simp only [retryGo, hop] at h
      cases h
      exact ⟨hop, Nat.le_refl _, by omega, fun m hm hm' => absurd hm' (by omega)⟩
    | error e =>
      simp only [retryGo, hop] at h
      obtain ⟨h1, h2, h3, h4⟩ := ih (n₀ + 1) op n v h
      refine ⟨h1, by omega, by omega, fun m hm hm' => ?_⟩
      rcases Nat.eq_or_lt_of_le hm with rfl | hlt
      · exact ⟨e, hop⟩
      · exact h4 m hlt hm'

theorem retryGo_exhausted {α : Type} (k : Nat) :
    ∀ (n₀ : Nat) (op : Nat → Except String α) (n : Nat) (e : String),
      retryGo op n₀ k = RetryResult.exhausted n e →
      n = n₀ + k ∧ op n = Except.error e := by
  induction k with
  | zero =>
    intro n₀ op n e h
    cases hop : op n₀ with
    | ok w => simp [retryGo, hop] at h
    | error e' =>
      simp only [retryGo, hop] at h
      cases h
      exact ⟨by omega, hop⟩
  | succ k ih =>
    intro n₀ op n e h
    cases hop : op n₀ with
    | ok w => simp [retryGo, hop] at h
    | error e' =>
      simp only [retryGo, hop] at h
      obtain ⟨h1, h2⟩ := ih (n₀ + 1) op n e h
      exact ⟨by omega, h2⟩

theorem retryGoD_fail_schedule {α : Type} (k : Nat) :
    ∀ (e : String) (d0 n : Nat),
      (retryGoD (fun _ => (Except.error e : Except String α)) d0 n k).2 =
        (List.range k).map (fun i => nextRetryDelay d0 (n + i)) := by
  induction k with
  | zero => intro e d0 n; rfl
  | succ k ih =>
    intro e d0 n
    show nextRetryDelay d0 n ::
        (retryGoD (fun _ => (Except.error e : Except String α)) d0 (n + 1) k).2 = _
    rw [ih, List.range_succ_eq_map, List.map_cons, List.map_map]
    refine congrArg₂ _ (by rw [Nat.add_zero]) ?_
    have hf : (fun i => nextRetryDelay d0 (n + 1 + i)) =
        ((fun i => nextRetryDelay d0 (n + i)) ∘ Nat.succ) := by
      funext i
      show nextRetryDelay d0 (n + 1 + i) = nextRetryDelay d0 (n + (i + 1))
      congr 1
      omega
    rw [hf]

theorem mapContinue_all_fulfilled (l : List (Except String UrlSuccess)) :
    ((l.map mapTargetContinue).filter isFulfilled).length = l.length ∧
    ((l.map mapTargetContinue).filter isRejected).length = 0 := by
  induction l with
  | nil => exact ⟨rfl, rfl⟩
  | cons a l ih =>
    cases a with
    | ok v => simpa [mapTargetContinue, isFulfilled, isRejected, List.filter_cons] using ih
    | error e => simpa [mapTargetContinue, isFulfilled, isRejected, List.filter_cons] using ih

/-- C1: with `--continue`, the summary's `successful` count is the number
of FULFILLED promises of `Promise.allSettled` — but the catch handler
fulfills every failed target with a `{success:false}` value, so the code
reports `successful = total` and `failed = 0` regardless of per-target
failures.  In the claim's `[A, B, C]` scenario with only B failing, the
code's summary is `{total:3, successful:3, failed:0}`, not
`{total:3, succeeded:2, failed:1}`. -/
theorem runContinue_summary_bug :
    (∀ ops : List (Except String UrlSuccess),
        runContinue ops = ⟨ops.length, ops.length, 0⟩) ∧
    runContinue [Except.ok ⟨true, "A", "A.md"⟩,
        Except.error "No content found", Except.ok ⟨true, "C", "C.md"⟩] =
      ⟨3, 3, 0⟩ := by
  refine ⟨?_, by rfl⟩
  intro ops
  have h := mapContinue_all_fulfilled ops
  show RunSummary.mk ops.length _ _ = _
  rw [h.1, h.2]

/-- C3 counterexample: with `maxRetries = 3`, an operation that always
fails is attempted 4 times — the terminal failure happens at attempt
`maxRetries + 1`, so the total number of attempts exceeds `maxRetries`,
contradicting the claim's `Attempting(maxRetries) → Exhausted` state
machine. -/
theorem retry_attempts_exceed_maxRetries :
    pRetry (fun _ => (Except.error "No content found" : Except String UrlSuccess)) 3 =
      RetryResult.exhausted 4 "No content found" ∧ 3 < 4 :=
  ⟨rfl, by decide⟩

/-- C3 (amended): the retry wrapper follows p-retry's state machine: a
success at any attempt returns immediately (all earlier attempts having
failed); a failed attempt `n` is retried iff `n ≤ maxRetries`; the
terminal failure happens exactly at attempt `maxRetries + 1`, so the
total number of attempts never exceeds `maxRetries + 1`. -/
theorem pRetry_state_machine {α : Type} (op : Nat → Except String α) (retries : Nat) :
    (∀ n v, pRetry op retries = RetryResult.done n v →
      op n = Except.ok v ∧ 1 ≤ n ∧ n ≤ retries + 1 ∧
        ∀ m, 1 ≤ m → m < n → ∃ e, op m = Except.error e) ∧
    (∀ n e, pRetry op retries = RetryResult.exhausted n e →
      n = retries + 1 ∧ op n = Except.error e) := by
  constructor
  · intro n v h
    obtain ⟨h1, h2, h3, h4⟩ := retryGo_done retries 1 op n v h
    exact ⟨h1, h2, by omega, h4⟩
  · intro n e h
    obtain ⟨h1, h2⟩ := retryGo_exhausted retries 1 op n e h
    exact ⟨by omega, h2⟩

/-- Witness for C3: a concrete operation failing at attempt 1 and
succeeding at attempt 2, run with 3 retries, plus a concrete exhaustion
at attempt 4. -/
theorem pRetry_state_machine_witness :
    (fun n => if n = 2 then (Except.ok 0 : Except String Nat)
      else Except.error "x") 2 = Except.ok 0 ∧
    1 ≤ 2 ∧ 2 ≤ 3 + 1 ∧ 4 = 3 + 1 := by
  have h := pRetry_state_machine
    (fun n => if n = 2 then (Except.ok 0 : Except String Nat) else Except.error "x") 3
  have hd := h.1 2 0 (by rfl)
  have h2 := pRetry_state_machine (fun _ => (Except.error "x" : Except String Nat)) 3
  have he := h2.2 4 "x" (by rfl)
  exact ⟨hd.1, hd.2.1, hd.2.2.1, he.1⟩

/-- C4: the delay computed after failed attempt `n` (1-based) is
`min(initialRetryDelayMs * 2^(n-1), 60000)`; the wait schedule of an
always-failing operation lists exactly these delays, and for
`initialRetryDelayMs = 1000, retries = 3` the waits before attempts
2, 3, 4 are 1000 ms, 2000 ms, 4000 ms. -/
theorem retry_backoff_formula :
    (∀ d0 n, nextRetryDelay d0 n = min (d0 * 2 ^ (n - 1)) 60000) ∧
    (∀ d0 n, nextRetryDelay d0 n ≤ 60000) ∧
    (∀ (e : String) (d0 retries : Nat),
      (pRetryD (fun _ => (Except.error e : Except String UrlSuccess)) d0 retries).2 =
        (List.range retries).map (fun i => nextRetryDelay d0 (i + 1))) ∧
    (pRetryD (fun _ => (Except.error "No content found" : Except String UrlSuccess))
        1000 3).2 = [1000, 2000, 4000] := by
  refine ⟨fun _ _ => rfl, fun _ _ => Nat.min_le_right _ _, ?_, by rfl⟩
  intro e d0 retries
  have h := retryGoD_fail_schedule (α := UrlSuccess) retries e d0 1
  rw [pRetryD, h]
  apply congrArg₂ _ ?_ rfl
  funext i
  congr 1
  omega

/-- C10: in every assembled metadata object, `length` equals
`wordCount`, and both are set from the extractor's `word_count`. -/
theorem metadata_length_eq_wordCount (r : ParseResult) (u now : String) :
    (mkMetadata r u now).length = (mkMetadata r u now).wordCount ∧
    (mkMetadata r u now).wordCount = r.word_count :=
  ⟨rfl, rfl⟩

/-- C7: when the extraction result is absent or has empty content,
`processUrl` fails with "No content found" and performs no file write;
such a failure is a retryable attempt failure — an operation failing
this way at attempt 1 and succeeding at attempt 2 completes
successfully when at least one retry remains. -/
theorem empty_content_retryable :
    (∀ (out now u : String) (r : Option ParseResult), contentMissing r = true →
      processUrl out now u r = (Except.error "No content found", [])) ∧
    (∀ (op : Nat → Except String UrlSuccess) (retries : Nat) (v : UrlSuccess),
      op 1 = Except.error "No content found" → op 2 = Except.ok v →
      1 ≤ retries → pRetry op retries = RetryResult.done 2 v) := by
  constructor
  · intro out now u r h
    match r with
    | none => rfl
    | some pr =>
      match hc : pr.content with
      | none => simp [processUrl, hc]
      | some s =>
        simp only [contentMissing, hc] at h
        have hs : s = "" := by simpa using h
        simp [processUrl, hc, hs]
  · intro op retries v h1 h2 hr
    obtain ⟨k, rfl⟩ : ∃ k, retries = k + 1 := ⟨retries - 1, by omega⟩
    show retryGo op 1 (k + 1) = RetryResult.done 2 v
    simp only [retryGo, h1]
    match k with
    | 0 => simp [retryGo, h2]
    | k' + 1 => simp [retryGo, h2]

/-- Witness for C7: a concrete empty-content extraction result and a
concrete operation that fails once with "No content found" and then
succeeds. -/
theorem empty_content_retryable_witness :
    processUrl "out" "2026-01-01T00:00:00.000Z" "https://e.com"
        (some ⟨some "", none, none, none, 0, none, none, none⟩) =
      (Except.error "No content found", []) ∧
    pRetry (fun n => if n = 1 then Except.error "No content found"
        else Except.ok (⟨true, "u", "p"⟩ : UrlSuccess)) 3 =
      RetryResult.done 2 ⟨true, "u", "p"⟩ := by
  constructor
  · exact empty_content_retryable.1 "out" "2026-01-01T00:00:00.000Z"
      "https://e.com" _ (by rfl)
  · exact empty_content_retryable.2 _ 3 _ (by rfl) (by rfl) (by decide)

/-! ## Round-trip of the metadata serialization -/

theorem expectChars_append (p rest : List Char) :
    expectChars p (p ++ rest) = some rest := by
  induction p with
  | nil => rfl
  | cons c cs ih => simp [expectChars, ih]

theorem unescChars_quote (cs : List Char) :
    unescChars ('"' :: cs) = some ([], cs) := by
  rw [unescChars.eq_def]
  simp

theorem unescChars_slash (d : Char) (ds : List Char) :
    unescChars ('\\' :: d :: ds) =
      (unescChars ds).map (fun p => ((if d = 'n' then '\n' else d) :: p.1, p.2)) := by
  rw [unescChars.eq_def]
  simp

theorem unescChars_other (c : Char) (h2 : c ≠ '"') (h1 : c ≠ '\\')
    (cs : List Char) :
    unescChars (c :: cs) = (unescChars cs).map (fun p => (c :: p.1, p.2)) := by
  rw [unescChars.eq_def]
  simp [h2, h1]

theorem escChars_other (c : Char) (h1 : c ≠ '\\') (h2 : c ≠ '"')
    (h3 : c ≠ '\n') (cs : List Char) :
    escChars (c :: cs) = c :: escChars cs := by
  rw [escChars.eq_def]
  simp [h1, h2, h3]

theorem unesc_esc (v : List Char) :
    ∀ r, unescChars (escChars v ++ '"' :: r) = some (v, r) := by
  induction v with
  | nil => intro r; exact unescChars_quote r
  | cons c cs ih =>
    intro r
    by_cases h1 : c = '\\'
    · subst h1
      show unescChars ('\\' :: '\\' :: (escChars cs ++ '"' :: r)) = _
      rw [unescChars_slash, ih r]
      rfl
    · by_cases h2 : c = '"'
      · subst h2
        show unescChars ('\\' :: '"' :: (escChars cs ++ '"' :: r)) = _
        rw [unescChars_slash, ih r]
        rfl
      · by_cases h3 : c = '\n'
        · subst h3
          show unescChars ('\\' :: 'n' :: (escChars cs ++ '"' :: r)) = _
          rw [unescChars_slash, ih r]
          rfl
        · rw [escChars_other c h1 h2 h3, List.cons_append,
            unescChars_other c h2 h1, ih r]
          rfl

theorem hexCharAux_digit (d : Nat) (hd : d < 10) :
    (hexCharAux d).isDigit = true ∧ (hexCharAux d).toNat - 48 = d := by
  interval_cases d <;> exact ⟨by decide, by decide⟩

theorem readDigits_run (ds : List Nat) (h : ∀ d ∈ ds, d < 10) (c : Char)
    (hc : c.isDigit = false) (r : List Char) :
    readDigits (ds.map hexCharAux ++ c :: r) = (ds, c :: r) := by
  induction ds with
  | nil => simp [readDigits, hc]
  | cons d ds ih =>
    have hd := hexCharAux_digit d (h d (List.mem_cons_self _ _))
    have ih' := ih (fun x hx => h x (List.mem_cons_of_mem _ hx))
    simp [readDigits, hd.1, hd.2, ih']

theorem foldr_eq_ofDigits (l : List Nat) :
    l.foldr (fun d a => 10 * a + d) 0 = Nat.ofDigits 10 l := by
  induction l with
  | nil => simp [Nat.ofDigits]
  | cons d l ih => simp [Nat.ofDigits_cons, ih]; omega

theorem digitsVal_natBigDigits (n : Nat) : digitsVal (natBigDigits n) = n := by
  by_cases h : n = 0
  · subst h; rfl
  · unfold natBigDigits digitsVal
    rw [if_neg h, List.foldl_reverse, foldr_eq_ofDigits]
    exact_mod_cast Nat.ofDigits_digits 10 n

theorem natBigDigits_lt (n : Nat) : ∀ d ∈ natBigDigits n, d < 10 := by
  intro d hd
  unfold natBigDigits at hd
  by_cases h : n = 0
  · rw [if_pos h] at hd
    simp at hd
    omega
  · rw [if_neg h, List.mem_reverse] at hd
    exact Nat.digits_lt_base (by norm_num) hd

theorem natBigDigits_ne_nil (n : Nat) : natBigDigits n ≠ [] := by
  unfold natBigDigits
  by_cases h : n = 0
  · simp [h]
  · rw [if_neg h]
    simp [Nat.digits_ne_nil_iff_ne_zero, h]

theorem parseNatVal_ser (n : Nat) (c : Char) (hc : c.isDigit = false)
    (r : List Char) :
    parseNatVal (natChars n ++ c :: r) = some (n, c :: r) := by
  unfold parseNatVal natChars
  rw [readDigits_run _ (natBigDigits_lt n) c hc r]
  simp [natBigDigits_ne_nil n, digitsVal_natBigDigits]

theorem parseNatVal_ser_nl (n : Nat) (r : List Char) :
    parseNatVal (natChars n ++ '\n' :: r) = some (n, '\n' :: r) :=
  parseNatVal_ser n '\n' (by decide) r

theorem strMk_data (s : String) : String.mk s.data = s := rfl

theorem parseStrVal_ser (o : Option String) (r : List Char) :
    parseStrVal (serOptStr o ++ r) = some (o, r) := by
  cases o with
  | none => rfl
  | some s =>
    show parseStrVal ('"' :: ((escChars s.data ++ ['"']) ++ r)) = _
    rw [List.append_assoc]
    show parseStrVal ('"' :: (escChars s.data ++ '"' :: r)) = _
    simp [parseStrVal, unesc_esc, strMk_data]

theorem parseStrReq_ser (s : String) (r : List Char) :
    parseStrReq (serStr s ++ r) = some (s, r) := by
  show parseStrReq ('"' :: ((escChars s.data ++ ['"']) ++ r)) = _
  rw [List.append_assoc]
  show parseStrReq ('"' :: (escChars s.data ++ '"' :: r)) = _
  simp [parseStrReq, unesc_esc, strMk_data]

theorem parseKeyVal_ser {α : Type} (pv : List Char → Option (α × List Char))
    (key : String) (v : List Char) (val : α) (r : List Char)
    (h : pv (v ++ '\n' :: r) = some (val, '\n' :: r)) :
    parseKeyVal pv key (serLine key v ++ r) = some (val, r) := by
  unfold parseKeyVal serLine
  have e1 : (key.data ++ ':' :: ' ' :: (v ++ ['\n'])) ++ r =
      (key.data ++ [':', ' ']) ++ (v ++ '\n' :: r) := by
    simp [List.append_assoc]
  rw [e1, expectChars_append]
  simp only [Option.some_bind]
  rw [h]
  rfl

theorem parseKeyVal_ser_nil {α : Type} (pv : List Char → Option (α × List Char))
    (key : String) (v : List Char) (val : α)
    (h : pv (v ++ ['\n']) = some (val, ['\n'])) :
    parseKeyVal pv key (serLine key v) = some (val, []) := by
  have := parseKeyVal_ser pv key v val [] h
  simpa using this

theorem parseMeta_yamlDump (m : Metadata) : parseMeta (yamlDump m) = some m := by
  have hd : (yamlDump m).data = serializeMeta m := rfl
  unfold parseMeta
  rw [hd]
  unfold serializeMeta
  rw [parseKeyVal_ser _ _ _ _ _ (parseStrVal_ser m.title _)]
  simp only [Option.some_bind]
  rw [parseKeyVal_ser _ _ _ _ _ (parseStrVal_ser m.excerpt _)]
  simp only [Option.some_bind]
  rw [parseKeyVal_ser _ _ _ _ _ (parseStrVal_ser m.siteName _)]
  simp only [Option.some_bind]
  rw [parseKeyVal_ser _ _ _ _ _ (parseStrReq_ser m.url _)]
  simp only [Option.some_bind]
  rw [parseKeyVal_ser _ _ _ _ _ (parseNatVal_ser_nl m.wordCount _)]
  simp only [Option.some_bind]
  rw [parseKeyVal_ser _ _ _ _ _ (parseNatVal_ser_nl m.length _)]
  simp only [Option.some_bind]
  rw [parseKeyVal_ser _ _ _ _ _ (parseStrReq_ser m.processedAt _)]
  simp only [Option.some_bind]
  rw [parseKeyVal_ser _ _ _ _ _ (parseStrVal_ser m.author _)]
  simp only [Option.some_bind]
  rw [parseKeyVal_ser _ _ _ _ _ (parseStrVal_ser m.date_published _)]
  simp only [Option.some_bind]
  rw [parseKeyVal_ser_nil _ _ _ _ (parseStrVal_ser m.lead_image_url ['\n'])]
  simp only [Option.some_bind]
  rfl

/-- C9: the serialized metadata block round-trips — parsing the
serialization of any `Metadata` value reproduces it exactly, in
particular the `title`, `excerpt`, `siteName`, `url`, `wordCount` and
`length` field values. -/
theorem metadata_round_trip (m : Metadata) :
    parseMeta (yamlDump m) = some m ∧
    ((parseMeta (yamlDump m)).map Metadata.wordCount = some m.wordCount ∧
     (parseMeta (yamlDump m)).map Metadata.title = some m.title ∧
     (parseMeta (yamlDump m)).map Metadata.url = some m.url) := by
  have h := parseMeta_yamlDump m
  exact ⟨h, by rw [h]; rfl, by rw [h]; rfl, by rw [h]; rfl⟩

/-- C8: the assembled artifact is exactly the frontmatter-delimited
metadata block, then a heading line, then the body; the heading is the
document title, or the fixed placeholder `Untitled` when the title is
absent (or empty, which JS `||` also treats as falsy). -/
theorem assemble_structure :
    (∀ (m : Metadata) (markdown : String),
      (assembleContent m markdown).data =
        ("---\n".data ++ serializeMeta m ++ "---\n\n".data) ++
        ("# ".data ++ (jsOrDefault m.title "Untitled").data ++ "\n\n".data) ++
        (markdown.data ++ ['\n'])) ∧
    (∀ d, jsOrDefault none d = d) ∧
    (∀ t d, jsOrDefault (some t) d = if t = "" then d else t) := by
  refine ⟨?_, fun d => rfl, fun t d => rfl⟩
  intro m markdown
  show ("---\n" ++ yamlDump m ++ "---\n\n# " ++ jsOrDefault m.title "Untitled" ++
      "\n\n" ++ markdown ++ "\n").data = _
  simp [String.data_append, yamlDump, List.append_assoc]

/-! ## Properties of the filename deriver -/

theorem lenBytesLE_length (k : Nat) : ∀ n, (lenBytesLE n k).length = k := by
  induction k with
  | zero => intro n; rfl
  | succ k ih => intro n; simp [lenBytesLE, ih]

theorem md5_length (bs : List Nat) : (md5 bs).length = 16 := by
  simp [md5, lenBytesLE_length]

theorem hexCharAux_safe (m : Nat) :
    isHexChar (hexCharAux m) = true ∧ pathSafe (hexCharAux m) = true := by
  match m with
  | 0 | 1 | 2 | 3 | 4 | 5 | 6 | 7 | 8 | 9 | 10 | 11 | 12 | 13 | 14 | 15 =>
    exact ⟨by decide, by decide⟩
  | n + 16 => exact ⟨rfl, rfl⟩

theorem flatMap_hexByte_length (l : List Nat) :
    (l.flatMap hexByte).length = 2 * l.length := by
  induction l with
  | nil => rfl
  | cons b l ih =>
    simp only [List.flatMap_cons, List.length_append, ih, hexByte,
      List.length_cons, List.length_nil, List.length_map]
    omega

theorem flatMap_hexByte_safe (l : List Nat) :
    ((l.flatMap hexByte).all pathSafe) = true ∧
    ((l.flatMap hexByte).all isHexChar) = true := by
  induction l with
  | nil => exact ⟨rfl, rfl⟩
  | cons b l ih =>
    simp only [List.flatMap_cons, List.all_append, ih.1, ih.2, hexByte,
      List.all_cons, List.all_nil, (hexCharAux_safe (b / 16 % 16)).1,
      (hexCharAux_safe (b / 16 % 16)).2, (hexCharAux_safe (b % 16)).1,
      (hexCharAux_safe (b % 16)).2]
    exact ⟨rfl, rfl⟩

/-- C6: `urlToFilename` is a total function on URL strings whose result
is always a non-empty single path segment — 32 lower-case hex digits
followed by the fixed `.md` extension, 35 characters with no `/` or `\`
— and, being a function of the URL alone, it is deterministic across
calls and runs. -/
theorem urlToFilename_spec (u : String) :
    (urlToFilename u).length = 35 ∧
    0 < (urlToFilename u).length ∧
    ((urlToFilename u).data.all pathSafe) = true ∧
    ∃ stem, (urlToFilename u).data = stem ++ ['.', 'm', 'd'] ∧
      stem.length = 32 ∧ (stem.all isHexChar) = true := by
  have hlen : ((md5 (strBytes u)).flatMap hexByte).length = 32 := by
    rw [flatMap_hexByte_length, md5_length]
  have hl35 : (urlToFilename u).length = 35 := by
    show ((md5 (strBytes u)).flatMap hexByte ++ ['.', 'm', 'd']).length = 35
    rw [List.length_append, hlen]
    rfl
  refine ⟨hl35, by omega, ?_, (md5 (strBytes u)).flatMap hexByte, rfl, hlen,
    (flatMap_hexByte_safe _).2⟩
  show (((md5 (strBytes u)).flatMap hexByte ++ ['.', 'm', 'd']).all pathSafe) = true
  rw [List.all_append, (flatMap_hexByte_safe _).1]
  rfl

/-! ## Properties of the throttled scheduler -/

theorem tStarts_closed (limit : Nat) (hl : 0 < limit) :
    ∀ (n q r : Nat), r ≤ limit →
      tStarts limit n ⟨1000 * q, r⟩ =
        (List.range n).map (fun j => 1000 * (q + (r + j) / limit)) := by
  intro n
  induction n with
  | zero => intro q r hr; rfl
  | succ n ih =>
    intro q r hr
    rw [tStarts.eq_def]
    simp only []
    by_cases hrl : r < limit
    · simp only [tDelay, if_pos hrl]
      rw [ih q (r + 1) hrl]
      rw [List.range_succ_eq_map, List.map_cons, List.map_map]
      congr 1
      · simp [Nat.div_eq_of_lt hrl]
      · apply List.map_congr_left
        intro j _
        show 1000 * (q + (r + 1 + j) / limit) = 1000 * (q + (r + (j + 1)) / limit)
        have e3 : r + 1 + j = r + (j + 1) := by omega
        rw [e3]
    · have hre : r = limit := by omega
      rw [hre]
      simp only [tDelay, if_neg (lt_irrefl limit)]
      have e1 : 1000 * q + 1000 = 1000 * (q + 1) := by ring
      rw [e1, ih (q + 1) 1 hl]
      rw [List.range_succ_eq_map, List.map_cons, List.map_map]
      congr 1
      · simp [Nat.div_self hl]
      · apply List.map_congr_left
        intro j _
        show 1000 * (q + 1 + (1 + j) / limit) = 1000 * (q + (limit + (j + 1)) / limit)
        rw [Nat.add_comm limit (j + 1), Nat.add_div_right _ hl]
        have e2 : 1 + j = j + 1 := by omega
        rw [e2]
        ring

theorem opStarts_getElem (rate n : Nat) (hr : 0 < rate) (i : Nat) (h : i < n) :
    (opStarts rate n)[i]? = some (startOf rate i) := by
  unfold opStarts
  rw [if_pos hr]
  have h0 : (0 : Nat) = 1000 * 0 := by ring
  rw [show (⟨0, 0⟩ : TState) = ⟨1000 * 0, 0⟩ from by rw [← h0]]
  rw [tStarts_closed rate hr n 0 0 (by omega)]
  rw [List.getElem?_map, List.getElem?_range h]
  unfold startOf
  rw [if_pos hr]
  simp

theorem window_card (L t n : Nat) (hL : 0 < L) :
    ((Finset.range n).filter
      (fun i => t ≤ startOf L i ∧ startOf L i < t + 1000)).card ≤ L := by
  by_cases hS : ((Finset.range n).filter
      (fun i => t ≤ startOf L i ∧ startOf L i < t + 1000)).Nonempty
  · obtain ⟨i₀, hi₀⟩ := hS
    have hmem : ∀ i ∈ (Finset.range n).filter
        (fun i => t ≤ startOf L i ∧ startOf L i < t + 1000),
        t ≤ 1000 * (i / L) ∧ 1000 * (i / L) < t + 1000 := by
      intro i hi
      rw [Finset.mem_filter] at hi
      have := hi.2
      rwa [startOf, if_pos hL] at this
    have hq : ∀ i ∈ (Finset.range n).filter
        (fun i => t ≤ startOf L i ∧ startOf L i < t + 1000), i / L = i₀ / L := by
      intro i hi
      have h1 := hmem i hi
      have h2 := hmem i₀ hi₀
      set a := i / L with ha
      set b := i₀ / L with hb
      omega
    have hsub : (Finset.range n).filter
        (fun i => t ≤ startOf L i ∧ startOf L i < t + 1000) ⊆
        Finset.Ico (L * (i₀ / L)) (L * (i₀ / L) + L) := by
      intro i hi
      have hqi := hq i hi
      have hdm := Nat.div_add_mod i L
      have hml : i % L < L := Nat.mod_lt i hL
      rw [Finset.mem_Ico]
      rw [← hqi]
      omega
    calc ((Finset.range n).filter
        (fun i => t ≤ startOf L i ∧ startOf L i < t + 1000)).card
        ≤ (Finset.Ico (L * (i₀ / L)) (L * (i₀ / L) + L)).card :=
          Finset.card_le_card hsub
      _ = L := by rw [Nat.card_Ico]; omega
  · rw [Finset.not_nonempty_iff_eq_empty] at hS
    rw [hS]
    simp

/-- C5: when `ratePerSecond > 0` the throttled scheduler admits at most
`ratePerSecond` operation starts in any 1000 ms window (the `i`-th
operation starts at `1000 * (i / rate)`), queuing the rest for later
windows; when `ratePerSecond == 0` the unthrottled branch is taken and
every operation starts immediately with no admission delay. -/
theorem rate_limit_window :
    (∀ rate n t, 0 < rate →
      ((Finset.range n).filter
        (fun i => t ≤ startOf rate i ∧ startOf rate i < t + 1000)).card ≤ rate) ∧
    (∀ rate n i, 0 < rate → i < n →
      (opStarts rate n)[i]? = some (startOf rate i)) ∧
    (∀ n, opStarts 0 n = List.replicate n 0) ∧
    (∀ i, startOf 0 i = 0) := by
  refine ⟨fun rate n t hr => window_card rate t n hr,
    fun rate n i hr h => opStarts_getElem rate n hr i h,
    fun n => rfl, fun i => rfl⟩

/-- Witness for C5: at `rate = 2` with 10 simultaneously submitted
targets, any window starting at `t = 500` admits at most 2 starts, and
the 6th operation starts at `1000 * (5 / 2) = 2000`. -/
theorem rate_limit_window_witness :
    ((Finset.range 10).filter
      (fun i => 500 ≤ startOf 2 i ∧ startOf 2 i < 500 + 1000)).card ≤ 2 ∧
    (opStarts 2 10)[5]? = some (startOf 2 5) :=
  ⟨rate_limit_window.1 2 10 500 (by decide),
   rate_limit_window.2.1 2 10 5 (by decide) (by decide)⟩

/-! ## Halting behavior without `--continue` -/

/-- C2 counterexample: with the defaults (`rate = 1`, `retryDelay =
1000`, `retries = 3`) and targets `[A, B, C]` where only B fails, C's
operation is admitted by the throttle at t = 2000 ms, while B's
rejection only reaches the catch handler (and `process.exit(1)`) at
t = 8000 ms after B's full backoff schedule — so C IS processed before
the run halts, contradicting the claim that C is not processed. -/
theorem halt_still_processes_admitted :
    started [true, false, true] 1 1000 3 2 = true ∧
    startOf 1 2 = 2000 ∧
    exitTime [true, false, true] 1 1000 3 = some 8000 ∧
    exitCode [true, false, true] 1 1000 3 = 1 := by
  refine ⟨by decide, by decide, by decide, by decide⟩

/-- C2 (amended): without `--continue`, if any target fails then the
process exits with status 1 at the moment the first rejection reaches
the catch handler, and no target whose throttled start time lies at or
after that moment is ever started; targets admitted earlier (such as C
in the `[A, B, C]` scenario) may still be processed. -/
theorem halt_on_first_failure (targets : List Bool) (rate d0 retries i : Nat)
    (hfail : targets.getD i true = false) :
    exitCode targets rate d0 retries = 1 ∧
    ∀ j T, exitTime targets rate d0 retries = some T →
      T ≤ startOf rate j → started targets rate d0 retries j = false := by
  constructor
  · have hi : i < targets.length := by
      by_contra hlen
      push_neg at hlen
      rw [List.getD_eq_default _ _ hlen] at hfail
      exact absurd hfail (by decide)
    have hmem : (startOf rate i + exhaustWait d0 retries) ∈
        failTimes targets rate d0 retries := by
      unfold failTimes
      apply List.mem_filterMap.mpr
      refine ⟨i, by simp [List.mem_range, hi], ?_⟩
      rw [hfail]
      rfl
    have hne : failTimes targets rate d0 retries ≠ [] := by
      intro hemp
      rw [hemp] at hmem
      exact List.not_mem_nil _ hmem
    obtain ⟨T, hT⟩ : ∃ T, exitTime targets rate d0 retries = some T := by
      cases hmin : exitTime targets rate d0 retries with
      | some T => exact ⟨T, rfl⟩
      | none =>
        unfold exitTime at hmin
        exact absurd (List.min?_eq_none_iff.mp hmin) hne
    simp [exitCode, hT]
  · intro j T hT hle
    unfold started
    rw [hT]
    simp only [decide_eq_false_iff_not]
    rintro ⟨-, hlt⟩
    omega

/-- Witness for C2 (amended): in the `[A, B, C]` scenario with defaults,
the exit code is 1 and a hypothetical 9th target (start time 8000 ms,
equal to the exit time) is never started. -/
theorem halt_on_first_failure_witness :
    exitCode [true, false, true] 1 1000 3 = 1 ∧
    started [true, false, true] 1 1000 3 8 = false := by
  have h := halt_on_first_failure [true, false, true] 1 1000 3 1 (by decide)
  exact ⟨h.1, h.2 8 8000 (by decide) (by decide)⟩

end SitemapCrawler
